import Mathlib

/-!
# Khepera III UDP driver (`threaded/main.c`)

A shallow embedding of the request parser `parse_udp_packet` and of the two
session loops `state_udp_control` and `state_udp_data`, and the properties of
the wire protocol proved on it.

Conventions of the embedding:

* a C string is a `List Char` (its bytes before the terminating NUL);
* the robot (header `khepera3.h`, module `odometry_track`) is outside the
  sources: every call into it is recorded in a list of `GatewayCall`s, and the
  values it leaves in `khepera3.infrared_proximity.sensor` and `ot.state` are
  an input, the `Robot` record;
* `int` values are `Int`s; where the 32 bit range matters it is an explicit
  hypothesis (`INT_MIN ≤ n ∧ n ≤ INT_MAX`).
-/

namespace K3Driver

/-! ## Constants and the C library -/

/-- Longest string to echo: `#define ECHOMAX 255`. -/
def ECHOMAX : Nat := 255

/-- The string terminator. -/
def NUL : Char := Char.ofNat 0

/-- Smallest value of a 32 bit `int`. -/
def INT_MIN : Int := -2147483648

/-- Largest value of a 32 bit `int`. -/
def INT_MAX : Int := 2147483647

/-- The bytes of a buffer seen as a C string: everything before the first NUL
(`strlen`, `%s`). -/
def cstr (buf : List Char) : List Char :=
  buf.takeWhile (fun c => c != NUL)

/-- One call `strtok_r(s, delim, &saveptr)`, where `s` is the string handed in
by the first call and the saved pointer in the later ones: leading delimiters
are skipped; if nothing is left the result is NULL (`none`); otherwise the
token runs up to the next delimiter, which is overwritten and stepped over, and
the rest is saved for the next call. -/
def strtok_r (delim : List Char) (s : List Char) : Option (List Char × List Char) :=
  match s.dropWhile (fun c => delim.contains c) with
  | [] => none
  | c :: cs =>
    some ((c :: cs).takeWhile (fun c => !delim.contains c),
          ((c :: cs).dropWhile (fun c => !delim.contains c)).drop 1)

/-- C `isspace` in the "C" locale: space, and `\t \n \v \f \r`. -/
def isspace (c : Char) : Bool :=
  c.toNat == 32 || (9 ≤ c.toNat && c.toNat ≤ 13)

/-- C `isdigit`. -/
def isdigit (c : Char) : Bool :=
  48 ≤ c.toNat && c.toNat ≤ 57

/-- Value of the leading run of decimal digits of a string, continuing from
`acc`; conversion stops at the first character that is not a digit. -/
def digits_value : Nat → List Char → Nat
  | acc, [] => acc
  | acc, c :: cs =>
    if isdigit c then digits_value (acc * 10 + (c.toNat - 48)) cs else acc

/-- The call `strtol(s, NULL, 10)` with a 32 bit `long` (the robot is a 32 bit
ARM board): white space is skipped, one optional sign is read, then the leading
digits; with no digits the result is 0; a value outside the range saturates. -/
def strtol (s : List Char) : Int :=
  let v : Int :=
    match s.dropWhile isspace with
    | [] => 0
    | c :: cs =>
      if c = '-' then -(digits_value 0 cs : Int)
      else if c = '+' then (digits_value 0 cs : Int)
      else (digits_value 0 (c :: cs) : Int)
  if v < INT_MIN then INT_MIN else if INT_MAX < v then INT_MAX else v

/-- C `atoi(s)`, that is `(int) strtol(s, NULL, 10)`. For a value outside the
`int` range C leaves the result undefined; here it is what `strtol` gives. -/
def atoi (s : List Char) : Int :=
  strtol s

/-- The character of a decimal digit. -/
def digitChar (d : Nat) : Char :=
  Char.ofNat (48 + d)

/-- Decimal digits of `n` in front of `acc`, most significant first; `fuel`
bounds the number of digits. -/
def fmt_digits : Nat → Nat → List Char → List Char
  | 0, _, acc => acc
  | fuel + 1, n, acc =>
    if n < 10 then digitChar n :: acc
    else fmt_digits fuel (n / 10) (digitChar (n % 10) :: acc)

/-- Decimal digits of a natural number. -/
def fmt_nat (n : Nat) : List Char :=
  fmt_digits (n + 1) n []

/-- The conversion `%d` of `printf`: a minus sign for a negative value, then
the decimal digits of the magnitude. -/
def fmt_d (n : Int) : List Char :=
  if n < 0 then '-' :: fmt_nat n.natAbs else fmt_nat n.toNat

/-- An argument of `sprintf`. -/
inductive FmtArg
  | str (s : List Char)
  | int (n : Int)

/-- The call `sprintf(reply, format, args...)` for the conversions the driver
uses, `%s` and `%d`; the result is the string written to `reply`. A conversion
whose argument is missing or of the other kind (undefined in C, and absent from
the driver) prints nothing. -/
def sprintf : List Char → List FmtArg → List Char
  | [], _ => []
  | [c], _ => [c]
  | c :: k :: rest, args =>
    if c = '%' ∧ k = 's' then
      match args with
      | FmtArg.str s :: args2 => s ++ sprintf rest args2
      | _ => sprintf rest args
    else if c = '%' ∧ k = 'd' then
      match args with
      | FmtArg.int n :: args2 => fmt_d n ++ sprintf rest args2
      | _ => sprintf rest args
    else c :: sprintf (k :: rest) args

/-! ## The robot gateway -/

/-- The two motors `khepera3.motor_left` and `khepera3.motor_right`. -/
inductive Motor
  | motor_left
  | motor_right
  deriving DecidableEq, Repr

/-- A call into the robot library. The arguments of `khepera3_drive_set_speed`
are in the order of the call site; the first is the speed of the left wheel,
the second the speed of the right wheel. -/
inductive GatewayCall
  | khepera3_drive_set_speed (speed_left speed_right : Int)
  | khepera3_infrared_proximity
  | odometry_track_step
  | khepera3_motor_set_current_position (motor : Motor) (position : Int)
  deriving DecidableEq, Repr

/-- What the robot library leaves behind for a data request: the array
`khepera3.infrared_proximity.sensor` after `khepera3_infrared_proximity()`, and
`ot.state.pos_right_prev`, `ot.state.pos_left_prev` after
`odometry_track_step(&ot)`. -/
structure Robot where
  sensor : Nat → Int
  pos_right_prev : Int
  pos_left_prev : Int

/-! ## The parser -/

/-- What one call of `parse_udp_packet` does: the calls into the robot library,
in order; the text written to the caller's reply buffer by `sprintf` (`none`
when the buffer is not written); the message handed to `perror` in a rejecting
branch. -/
structure ParseResult where
  calls : List GatewayCall
  reply : Option (List Char)
  perror : Option String
  deriving DecidableEq

/-- A rejecting branch: `perror(...); reply = NULL; return;`. The assignment
changes only the parameter of `parse_udp_packet`, the caller's buffer is left as
it was. -/
def reject (message : String) : ParseResult :=
  { calls := [], reply := none, perror := some message }

/-- The delimiter string `const char *delim = ","`. -/
def delim : List Char := ",".toList

/-- The function `parse_udp_packet(msg, reply)`. -/
def parse_udp_packet (robot : Robot) (msg : List Char) : ParseResult :=
  match strtok_r delim msg with
  | none => reject "Parsing failed: Expected $K3DRV token."
  | some (token, saveptr) =>
    if token ≠ "$K3DRV".toList then reject "Parsing failed: Expected $K3DRV token."
    else
      match strtok_r delim saveptr with
      | none => reject "Parsing failed: Expected REQ token."
      | some (token, saveptr) =>
        if token ≠ "REQ".toList then reject "Parsing failed: Expected REQ token."
        else
          match strtok_r delim saveptr with
          | none => reject "Parsing failed: Expected TYPE token."
          | some (token, saveptr) =>
            if token = "CTRL".toList then
              match strtok_r delim saveptr with
              | none => reject "Parsing failed: CTRL expected VEL_R token."
              | some (token, saveptr) =>
                let vel_r_k3 := atoi token
                match strtok_r delim saveptr with
                | none => reject "Parsing failed: CTRL expected VEL_L token."
                | some (token, _) =>
                  let vel_l_k3 := atoi token
                  { calls := [GatewayCall.khepera3_drive_set_speed vel_l_k3 vel_r_k3],
                    reply := some (sprintf "$K3DRV,CTRL,RES".toList []),
                    perror := none }
            else if token = "DATA".toList then
              let ir := robot.sensor
              let enc_r := robot.pos_right_prev
              let enc_l := robot.pos_left_prev
              { calls := [GatewayCall.khepera3_infrared_proximity,
                          GatewayCall.odometry_track_step],
                reply := some (sprintf
                  "$K3DRV,RES,DATA,%s,%d,%d,%d,%d,%d,%d,%d,%d,%d,%d,%d,%d,%s,%d,%d,%d".toList
                  [FmtArg.str "IR".toList, FmtArg.int 11,
                   FmtArg.int (ir 0), FmtArg.int (ir 1), FmtArg.int (ir 2),
                   FmtArg.int (ir 3), FmtArg.int (ir 4), FmtArg.int (ir 5),
                   FmtArg.int (ir 6), FmtArg.int (ir 7), FmtArg.int (ir 8),
                   FmtArg.int (ir 9), FmtArg.int (ir 10),
                   FmtArg.str "ENC".toList, FmtArg.int 2,
                   FmtArg.int enc_r, FmtArg.int enc_l]),
                perror := none }
            else if token = "INIT".toList then
              { calls := [GatewayCall.khepera3_motor_set_current_position Motor.motor_left 0,
                          GatewayCall.khepera3_motor_set_current_position Motor.motor_right 0],
                reply := some (sprintf "$K3DRV,RES,INIT".toList []),
                perror := none }
            else reject "Parsing failed: Expected CTRL, DATA, or INIT token."

/-! ## The session loops -/

/-- The command line options read by `algorithm_init`. -/
structure Configuration where
  udp_control_port : Nat
  udp_data_port : Nat
  verbosity : Nat
  timeout : Nat

/-- The state of a session loop while it is blocked in `recvfrom`:
`tv_sec` is the receive timeout armed on the socket (`SO_RCVTIMEO`, in seconds,
where 0 means that a receive never times out); `replyBuffer` is the string in
the storage of the local array `replyBuffer`, which no iteration initialises;
`calls` and `sent` record the calls into the robot library and the datagrams
handed to `sendto` so far. -/
structure Session where
  tv_sec : Nat
  replyBuffer : List Char
  calls : List GatewayCall
  sent : List (List Char)
  deriving DecidableEq

/-- What can wake up a blocked `recvfrom`: the receive timeout runs out (the
call returns -1 with `errno == EAGAIN`), or a datagram arrives. -/
inductive Event
  | expired
  | datagram (bytes : List Char)

/-- Result of one step of a session loop: the next blocked state; or undefined
behaviour of the C program (a store outside an array); or the event cannot
occur in the state. -/
inductive Outcome
  | next (s : Session)
  | undefined
  | impossible
  deriving DecidableEq

/-- The call `recvfrom(sock, echoBuffer, len, 0, ...)` for an arriving datagram:
the bytes stored in the buffer, at most `len` (the rest of a longer datagram is
discarded), and the returned count. -/
def recvfrom (datagram : List Char) (len : Nat) : List Char × Nat :=
  (datagram.take len, min datagram.length len)

/-- The assignment `echoBuffer[recvMsgSize] = '\0'` on an array declared as
`char echoBuffer[size]` that holds the received bytes: the buffer with the
terminator when the index is inside the array, `none` when the index is not
an index of the array. -/
def store_terminator (size : Nat) (stored : List Char) (recvMsgSize : Nat) :
    Option (List Char) :=
  if recvMsgSize < size then some (stored.take recvMsgSize ++ [NUL]) else none

/-- The test `replyBuffer != NULL` in the session loops: `replyBuffer` is a
local array of the loop, so the test compares the address of the array with
NULL and holds whatever `parse_udp_packet` assigned to its own parameter. -/
def replyBuffer_not_null : Bool := true

/-- The session state a loop starts in: blocked with receive timeout `tv_sec`,
nothing called or sent. The content of the reply buffer is not initialised by
the program; the empty string stands for it here. -/
def Session.start (tv_sec : Nat) : Session :=
  { tv_sec := tv_sec, replyBuffer := [], calls := [], sent := [] }

/-- One wake-up of the receive in `state_udp_control`, up to the next
blocking receive. On a timeout (possible only while a non-zero timeout is
armed) the motors are stopped and the timeout is set to zero, and the inner
loop receives again. On a datagram the string is terminated, copied to `echo`
and parsed, the reply buffer is sent, and the outer loop arms the configured
timeout again. The copy `sprintf(echo, "%s", echoBuffer)` into the array
`char echo[strlen(echoBuffer)]` is taken as the copy of the string; that the
array has no room for the terminator of the copy is not part of the model.
Failures of the socket calls (`DieWithError`) are not events of the model. -/
def state_udp_control (configuration : Configuration) (robot : Robot) (s : Session) :
    Event → Outcome
  | Event.expired =>
    if s.tv_sec = 0 then Outcome.impossible
    else
      Outcome.next { s with calls := s.calls ++ [GatewayCall.khepera3_drive_set_speed 0 0],
                            tv_sec := 0 }
  | Event.datagram bytes =>
    let (received, recvMsgSize) := recvfrom bytes ECHOMAX
    match store_terminator ECHOMAX received recvMsgSize with
    | none => Outcome.undefined
    | some echoBuffer =>
      let echo := cstr echoBuffer
      let parsed := parse_udp_packet robot echo
      let replyBuffer :=
        match parsed.reply with
        | some text => text
        | none => s.replyBuffer
      if replyBuffer_not_null then
        Outcome.next { tv_sec := configuration.timeout,
                       replyBuffer := replyBuffer,
                       calls := s.calls ++ parsed.calls,
                       sent := s.sent ++ [replyBuffer] }
      else
        Outcome.next { tv_sec := configuration.timeout,
                       replyBuffer := replyBuffer,
                       calls := s.calls ++ parsed.calls,
                       sent := s.sent }

/-- One datagram received by `state_udp_data`, up to the next blocking
receive. The socket has no receive timeout, so a datagram is the only event. -/
def state_udp_data (robot : Robot) (s : Session) (bytes : List Char) : Outcome :=
  let (received, recvMsgSize) := recvfrom bytes ECHOMAX
  match store_terminator ECHOMAX received recvMsgSize with
  | none => Outcome.undefined
  | some echoBuffer =>
    let echo := cstr echoBuffer
    let parsed := parse_udp_packet robot echo
    let replyBuffer :=
      match parsed.reply with
      | some text => text
      | none => s.replyBuffer
    if replyBuffer_not_null then
      Outcome.next { s with replyBuffer := replyBuffer,
                            calls := s.calls ++ parsed.calls,
                            sent := s.sent ++ [replyBuffer] }
    else
      Outcome.next { s with replyBuffer := replyBuffer,
                            calls := s.calls ++ parsed.calls }

/-! ## Token sequences -/

/-- All the tokens `strtok_r` yields on a string when called until it returns
NULL; `fuel` bounds the number of calls. -/
def tokens_fuel : Nat → List Char → List (List Char)
  | 0, _ => []
  | fuel + 1, s =>
    match strtok_r delim s with
    | none => []
    | some (token, saveptr) => token :: tokens_fuel fuel saveptr

/-- The token sequence of a string: its non-empty fields between commas. -/
def tokens (s : List Char) : List (List Char) :=
  tokens_fuel (s.length + 1) s

/-- The token sequences `parse_udp_packet` accepts: `$K3DRV`, `REQ`, then
`INIT`, or `DATA`, or `CTRL` and two more tokens; whatever follows is not
looked at. -/
def accepted_tokens : List (List Char) → Bool
  | t1 :: t2 :: t3 :: more =>
    t1 = "$K3DRV".toList && t2 = "REQ".toList &&
      (t3 = "INIT".toList || t3 = "DATA".toList ||
        (t3 = "CTRL".toList && 2 ≤ more.length))
  | _ => false

/-! ## Notions used in the statements

`stops` and `no_digits` describe the strings on which the digit conversion of
`atoi` ends. The definitions named `spec_...` are not taken from the code: they
follow the wording of the protocol description (a token that is a decimal
integer as a whole, the comma separated grammar of the requests) and are what
the code is compared with. -/

/-- Where a run of digits stops: at the end of the string or at a character
that is not a digit. -/
def stops (rest : List Char) : Bool :=
  match rest with
  | [] => true
  | c :: _ => !isdigit c

/-- The strings on which `atoi` converts nothing: after white space and one
optional sign there is no digit. -/
def no_digits (t : List Char) : Bool :=
  match t.dropWhile isspace with
  | [] => true
  | c :: cs => if c = '-' ∨ c = '+' then stops cs else stops (c :: cs)

/-- The value of a string of decimal digits. -/
def spec_digits_value (ds : List Char) : Nat :=
  ds.foldl (fun acc c => acc * 10 + (c.toNat - 48)) 0

/-- The integer a token denotes when the whole token is a decimal integer (an
optional sign, then one or more digits, nothing else), `none` otherwise. -/
def spec_int (t : List Char) : Option Int :=
  match t with
  | [] => none
  | c :: cs =>
    if c = '-' then
      (if cs ≠ [] ∧ cs.all isdigit then some (-(spec_digits_value cs : Int)) else none)
    else if c = '+' then
      (if cs ≠ [] ∧ cs.all isdigit then some (spec_digits_value cs : Int) else none)
    else
      (if (c :: cs).all isdigit then some (spec_digits_value (c :: cs) : Int) else none)

/-- The speed the wording "the value of the token when it is a valid decimal
integer, 0 when it fails to parse as an integer" gives for a token. -/
def spec_speed (t : List Char) : Int :=
  (spec_int t).getD 0

/-- The fields of a datagram: the text between its commas, empty fields kept. -/
def spec_fields : List Char → List (List Char)
  | [] => [[]]
  | c :: cs =>
    match spec_fields cs with
    | [] => [[]]
    | f :: fs => if c = ',' then [] :: f :: fs else (c :: f) :: fs

/-- The request grammar of the protocol description: exactly the fields
`$K3DRV,REQ,INIT`, or `$K3DRV,REQ,DATA`, or `$K3DRV,REQ,CTRL,<INT>,<INT>` with two
decimal integers, and nothing else. -/
def spec_grammar (datagram : List Char) : Bool :=
  match spec_fields datagram with
  | [f1, f2, f3] =>
    f1 = "$K3DRV".toList && f2 = "REQ".toList && (f3 = "INIT".toList || f3 = "DATA".toList)
  | [f1, f2, f3, f4, f5] =>
    f1 = "$K3DRV".toList && f2 = "REQ".toList && f3 = "CTRL".toList &&
      (spec_int f4).isSome && (spec_int f5).isSome
  | _ => false

/-- The robot of the data scenario: infrared readings 1 to 11, encoders 100 and 95. -/
def scenario_robot : Robot :=
  { sensor := fun i => (i : Int) + 1, pos_right_prev := 100, pos_left_prev := 95 }

/-- The configuration of the scenarios: the default ports, timeout 2 seconds. -/
def scenario_configuration : Configuration :=
  { udp_control_port := 4555, udp_data_port := 4556, verbosity := 1, timeout := 2 }

/-! ## Lemmas on the C library model -/

theorem delim_contains (c : Char) : delim.contains c = decide (c = ',') := by
  show [','].contains c = decide (c = ',')
  simp

theorem takeWhile_stop (p : Char → Bool) (t rest : List Char) (x : Char)
    (h : ∀ c ∈ t, p c = true) (hx : p x = false) :
    (t ++ x :: rest).takeWhile p = t := by
  induction t with
  | nil => simp [List.takeWhile_cons, hx]
  | cons a as ih =>
    have ha : p a = true := h a (by simp)
    have has : ∀ c ∈ as, p c = true := fun c hc => h c (by simp [hc])
    simp [List.takeWhile_cons, ha, ih has]

theorem dropWhile_stop (p : Char → Bool) (t rest : List Char) (x : Char)
    (h : ∀ c ∈ t, p c = true) (hx : p x = false) :
    (t ++ x :: rest).dropWhile p = x :: rest := by
  induction t with
  | nil => simp [List.dropWhile_cons, hx]
  | cons a as ih =>
    have ha : p a = true := h a (by simp)
    have has : ∀ c ∈ as, p c = true := fun c hc => h c (by simp [hc])
    simp [List.dropWhile_cons, ha, ih has]

theorem takeWhile_all (p : Char → Bool) (t : List Char) (h : ∀ c ∈ t, p c = true) :
    t.takeWhile p = t := by
  induction t with
  | nil => rfl
  | cons a as ih =>
    have ha : p a = true := h a (by simp)
    have has : ∀ c ∈ as, p c = true := fun c hc => h c (by simp [hc])
    simp [List.takeWhile_cons, ha, ih has]

theorem dropWhile_all (p : Char → Bool) (t : List Char) (h : ∀ c ∈ t, p c = true) :
    t.dropWhile p = [] := by
  induction t with
  | nil => rfl
  | cons a as ih =>
    have ha : p a = true := h a (by simp)
    have has : ∀ c ∈ as, p c = true := fun c hc => h c (by simp [hc])
    simp [List.dropWhile_cons, ha, ih has]

theorem not_delim_of_not_mem (t : List Char) (hc : ',' ∉ t) :
    ∀ c ∈ t, (!delim.contains c) = true := by
  intro c hm
  rw [delim_contains]
  have : c ≠ ',' := fun h => hc (h ▸ hm)
  simp [this]

theorem dropWhile_delim_token (t rest : List Char) (hne : t ≠ []) (hc : ',' ∉ t) :
    (t ++ rest).dropWhile (fun c => delim.contains c) = t ++ rest := by
  cases t with
  | nil => exact absurd rfl hne
  | cons a as =>
    have ha : a ≠ ',' := fun h => hc (by simp [h])
    have : delim.contains a = false := by rw [delim_contains]; simp [ha]
    rw [List.cons_append, List.dropWhile_cons]
    simp only [this]
    rfl

theorem takeWhile_token (t rest : List Char) (hc : ',' ∉ t) :
    (t ++ ',' :: rest).takeWhile (fun c => !delim.contains c) = t :=
  takeWhile_stop _ t rest ',' (not_delim_of_not_mem t hc) (by rw [delim_contains]; simp)

theorem dropWhile_token (t rest : List Char) (hc : ',' ∉ t) :
    (t ++ ',' :: rest).dropWhile (fun c => !delim.contains c) = ',' :: rest :=
  dropWhile_stop _ t rest ',' (not_delim_of_not_mem t hc) (by rw [delim_contains]; simp)

theorem takeWhile_last (t : List Char) (hc : ',' ∉ t) :
    t.takeWhile (fun c => !delim.contains c) = t :=
  takeWhile_all _ t (not_delim_of_not_mem t hc)

theorem dropWhile_last (t : List Char) (hc : ',' ∉ t) :
    t.dropWhile (fun c => !delim.contains c) = [] :=
  dropWhile_all _ t (not_delim_of_not_mem t hc)

/-- A non-empty field followed by a comma is the next token, and the text after
the comma is saved. -/
theorem strtok_r_field (t rest : List Char) (hne : t ≠ []) (hc : ',' ∉ t) :
    strtok_r delim (t ++ ',' :: rest) = some (t, rest) := by
  unfold strtok_r
  rw [dropWhile_delim_token t _ hne hc]
  cases t with
  | nil => exact absurd rfl hne
  | cons a as =>
    show some (((a :: as) ++ ',' :: rest).takeWhile _,
      (((a :: as) ++ ',' :: rest).dropWhile _).drop 1) = _
    rw [takeWhile_token _ _ hc, dropWhile_token _ _ hc]
    rfl

/-- A non-empty field at the end of the string is the last token. -/
theorem strtok_r_last (t : List Char) (hne : t ≠ []) (hc : ',' ∉ t) :
    strtok_r delim t = some (t, []) := by
  unfold strtok_r
  have h := dropWhile_delim_token t [] hne hc
  rw [List.append_nil] at h
  rw [h]
  cases t with
  | nil => exact absurd rfl hne
  | cons a as =>
    show some ((a :: as).takeWhile _, ((a :: as).dropWhile _).drop 1) = _
    rw [takeWhile_last _ hc, dropWhile_last _ hc]
    rfl

/-- The string saved by `strtok_r` is shorter than the string it was given. -/
theorem strtok_r_length (s t r : List Char) (h : strtok_r delim s = some (t, r)) :
    r.length < s.length := by
  unfold strtok_r at h
  have h1 : (s.dropWhile (fun c => delim.contains c)).length ≤ s.length :=
    (List.dropWhile_sublist _).length_le
  cases hd : s.dropWhile (fun c => delim.contains c) with
  | nil => rw [hd] at h; cases h
  | cons a as =>
    rw [hd] at h h1
    simp only [Option.some.injEq, Prod.mk.injEq] at h
    have h2 : ((a :: as).dropWhile (fun c => !delim.contains c)).length ≤ (a :: as).length :=
      (List.dropWhile_sublist _).length_le
    have h3 : r.length ≤ ((a :: as).dropWhile (fun c => !delim.contains c)).length := by
      rw [← h.2]; simp
    have h4 : r.length < (a :: as).length := by
      rcases hq : (a :: as).dropWhile (fun c => !delim.contains c) with _ | ⟨b, bs⟩
      · rw [hq] at h; rw [← h.2]; simp
      · rw [hq] at h h2; rw [← h.2]; simp at h2 ⊢; omega
    omega

theorem tokens_fuel_eq (f1 : Nat) : ∀ (f2 : Nat) (s : List Char),
    s.length < f1 → s.length < f2 → tokens_fuel f1 s = tokens_fuel f2 s := by
  induction f1 with
  | zero => intro f2 s h1 _; omega
  | succ k ih =>
    intro f2 s h1 h2
    cases f2 with
    | zero => omega
    | succ m =>
      simp only [tokens_fuel]
      cases hs : strtok_r delim s with
      | none => rfl
      | some p =>
        obtain ⟨t, r⟩ := p
        have hl := strtok_r_length s t r hs
        simp only
        rw [ih m r (by omega) (by omega)]

/-- Unfolding of `tokens`: the first token, then the tokens of the saved rest. -/
theorem tokens_eq (s : List Char) :
    tokens s = match strtok_r delim s with
      | none => []
      | some (token, saveptr) => token :: tokens saveptr := by
  cases hs : strtok_r delim s with
  | none =>
    show tokens_fuel (s.length + 1) s = []
    simp only [tokens_fuel, hs]
  | some p =>
    obtain ⟨t, r⟩ := p
    have hl := strtok_r_length s t r hs
    have h1 : tokens_fuel (s.length + 1) s = t :: tokens_fuel s.length r := by
      simp only [tokens_fuel, hs]
    show tokens_fuel (s.length + 1) s = t :: tokens_fuel (r.length + 1) r
    rw [h1, tokens_fuel_eq s.length (r.length + 1) r hl (by omega)]

theorem fmt_digits_acc (f : Nat) : ∀ (n : Nat) (acc : List Char),
    fmt_digits f n acc = fmt_digits f n [] ++ acc := by
  induction f with
  | zero => intro n acc; simp [fmt_digits]
  | succ k ih =>
    intro n acc
    simp only [fmt_digits]
    split
    · simp
    · rw [ih (n / 10) (digitChar (n % 10) :: acc), ih (n / 10) [digitChar (n % 10)]]
      simp

theorem fmt_digits_fuel (f1 : Nat) : ∀ (f2 n : Nat) (acc : List Char),
    n < f1 → n < f2 → fmt_digits f1 n acc = fmt_digits f2 n acc := by
  induction f1 with
  | zero => intro f2 n acc h1 _; omega
  | succ k ih =>
    intro f2 n acc h1 h2
    cases f2 with
    | zero => omega
    | succ m =>
      simp only [fmt_digits]
      split
      · rfl
      · exact ih m (n / 10) _ (by omega) (by omega)

/-- Unfolding of `fmt_nat`: one digit below ten, otherwise the digits of the
tenth part followed by the last digit. -/
theorem fmt_nat_eq (n : Nat) :
    fmt_nat n = if n < 10 then [digitChar n] else fmt_nat (n / 10) ++ [digitChar (n % 10)] := by
  have h1 : fmt_nat n = if n < 10 then [digitChar n]
      else fmt_digits n (n / 10) [digitChar (n % 10)] := by
    show fmt_digits (n + 1) n [] = _
    simp only [fmt_digits]
  rw [h1]
  split
  · rfl
  · rw [fmt_digits_acc]
    show _ = fmt_digits (n / 10 + 1) (n / 10) [] ++ _
    rw [fmt_digits_fuel n (n / 10 + 1) (n / 10) [] (by omega) (by omega)]

theorem digitChar_toNat (d : Nat) (h : d < 10) : (digitChar d).toNat = 48 + d := by
  interval_cases d <;> rfl

theorem isdigit_digitChar (d : Nat) (h : d < 10) : isdigit (digitChar d) = true := by
  interval_cases d <;> rfl

theorem fmt_nat_ne_nil (n : Nat) : fmt_nat n ≠ [] := by
  rw [fmt_nat_eq]
  split <;> simp

theorem fmt_nat_isdigit (n : Nat) : ∀ c ∈ fmt_nat n, isdigit c = true := by
  induction n using Nat.strong_induction_on with
  | _ n ih =>
    rw [fmt_nat_eq]
    split
    · intro c hc
      simp only [List.mem_singleton] at hc
      rw [hc]
      exact isdigit_digitChar n (by omega)
    · intro c hc
      rw [List.mem_append] at hc
      rcases hc with hc | hc
      · exact ih (n / 10) (by omega) c hc
      · simp only [List.mem_singleton] at hc
        rw [hc]
        exact isdigit_digitChar _ (by omega)

theorem fmt_nat_length (k : Nat) : ∀ n : Nat, n < 10 ^ (k + 1) → (fmt_nat n).length ≤ k + 1 := by
  induction k with
  | zero =>
    intro n h
    rw [fmt_nat_eq]
    simp at h
    simp [h]
  | succ k ih =>
    intro n h
    rw [fmt_nat_eq]
    split
    · simp
    · have h2 : n / 10 < 10 ^ (k + 1) := by
        rw [Nat.div_lt_iff_lt_mul (by decide)]
        rw [pow_succ] at h
        exact h
      have := ih (n / 10) h2
      simp
      omega

theorem digits_value_fmt_nat (n : Nat) : ∀ rest : List Char,
    digits_value 0 (fmt_nat n ++ rest) = digits_value n rest := by
  induction n using Nat.strong_induction_on with
  | _ n ih =>
    intro rest
    rw [fmt_nat_eq]
    split
    · rename_i h
      simp only [List.singleton_append, digits_value, isdigit_digitChar n h, if_true,
        digitChar_toNat n h]
      congr 1
      omega
    · rename_i h
      rw [List.append_assoc, ih (n / 10) (by omega)]
      have hm : n % 10 < 10 := Nat.mod_lt _ (by decide)
      simp only [List.singleton_append, digits_value, isdigit_digitChar _ hm, if_true,
        digitChar_toNat _ hm]
      congr 1
      omega

theorem digits_value_stops (n : Nat) (rest : List Char) (h : stops rest = true) :
    digits_value n rest = n := by
  cases rest with
  | nil => rfl
  | cons c cs =>
    have : isdigit c = false := by simpa [stops] using h
    simp [digits_value, this]

theorem isdigit_facts (c : Char) (h : isdigit c = true) :
    isspace c = false ∧ c ≠ '-' ∧ c ≠ '+' ∧ c ≠ ',' := by
  simp only [isdigit, Bool.and_eq_true, decide_eq_true_eq] at h
  refine ⟨?_, ?_, ?_, ?_⟩
  · simp only [isspace, Bool.or_eq_false_iff, Bool.and_eq_false_imp, decide_eq_true_eq,
      decide_eq_false_iff_not, beq_eq_false_iff_ne]
    constructor
    · omega
    · intro _; omega
  · intro hc
    have : c.toNat = 45 := by rw [hc]; rfl
    omega
  · intro hc
    have : c.toNat = 43 := by rw [hc]; rfl
    omega
  · intro hc
    have : c.toNat = 44 := by rw [hc]; rfl
    omega

theorem fmt_nat_cons (n : Nat) : ∃ c cs, fmt_nat n = c :: cs ∧ isdigit c = true := by
  cases h : fmt_nat n with
  | nil => exact absurd h (fmt_nat_ne_nil n)
  | cons c cs => exact ⟨c, cs, rfl, fmt_nat_isdigit n c (by rw [h]; simp)⟩

theorem fmt_d_ne_nil (n : Int) : fmt_d n ≠ [] := by
  unfold fmt_d
  split
  · simp
  · exact fmt_nat_ne_nil _

theorem fmt_d_no_comma (n : Int) : ',' ∉ fmt_d n := by
  have hnat : ∀ m : Nat, ',' ∉ fmt_nat m := by
    intro m hm
    have := (isdigit_facts _ (fmt_nat_isdigit m _ hm)).2.2.2
    exact this rfl
  unfold fmt_d
  split
  · intro hm
    rw [List.mem_cons] at hm
    rcases hm with hm | hm
    · exact absurd hm (by decide)
    · exact hnat _ hm
  · exact hnat _

/-- Reading back what `%d` prints: for a value in the `int` range `atoi` returns
the value, also when the digits are followed by other text. -/
theorem atoi_fmt_d (n : Int) (rest : List Char) (hlo : INT_MIN ≤ n) (hhi : n ≤ INT_MAX)
    (h : stops rest = true) : atoi (fmt_d n ++ rest) = n := by
  unfold atoi strtol fmt_d
  by_cases hn : n < 0
  · have hsp : isspace '-' = false := by decide
    simp only [hn, if_true, List.cons_append, List.dropWhile_cons, hsp]
    simp only [Bool.false_eq_true, if_false, if_true]
    rw [digits_value_fmt_nat, digits_value_stops _ _ h]
    have hv : -(n.natAbs : Int) = n := by omega
    rw [hv]
    simp only [INT_MIN, INT_MAX] at hlo hhi ⊢
    rw [if_neg (by omega), if_neg (by omega)]
  · obtain ⟨c, cs, hcs, hd⟩ := fmt_nat_cons n.toNat
    obtain ⟨h1, h2, h3, _⟩ := isdigit_facts c hd
    simp only [hn, if_false, hcs, List.cons_append, List.dropWhile_cons, h1]
    simp only [Bool.false_eq_true, if_false, h2, h3]
    rw [← List.cons_append, ← hcs, digits_value_fmt_nat, digits_value_stops _ _ h]
    have hv : (n.toNat : Int) = n := by omega
    rw [hv]
    simp only [INT_MIN, INT_MAX] at hlo hhi ⊢
    rw [if_neg (by omega), if_neg (by omega)]

/-- A control request with two argument tokens is accepted; the first token is
converted to the speed of the right wheel, the second to that of the left. -/
theorem parse_ctrl (robot : Robot) (a b : List Char) (ha : a ≠ []) (hac : ',' ∉ a)
    (hb : b ≠ []) (hbc : ',' ∉ b) :
    parse_udp_packet robot ("$K3DRV,REQ,CTRL,".toList ++ a ++ ',' :: b) =
      { calls := [GatewayCall.khepera3_drive_set_speed (atoi b) (atoi a)],
        reply := some "$K3DRV,CTRL,RES".toList,
        perror := none } := by
  have hmsg : "$K3DRV,REQ,CTRL,".toList ++ a ++ ',' :: b =
      "$K3DRV".toList ++ ',' :: ("REQ".toList ++ ',' :: ("CTRL".toList ++ ',' :: (a ++ ',' :: b))) := by
    simp
  rw [hmsg]
  unfold parse_udp_packet
  rw [strtok_r_field _ _ (by decide) (by decide)]
  simp only [ne_eq, not_true_eq_false, if_false]
  rw [strtok_r_field _ _ (by decide) (by decide)]
  simp only [ne_eq, not_true_eq_false, if_false]
  rw [strtok_r_field _ _ (by decide) (by decide)]
  simp only [if_true]
  rw [strtok_r_field _ _ ha hac]
  simp only
  rw [strtok_r_last _ hb hbc]
  rfl


/-- The text of the data reply in closed form. -/
theorem sprintf_data (ir : Nat → Int) (enc_r enc_l : Int) :
    sprintf "$K3DRV,RES,DATA,%s,%d,%d,%d,%d,%d,%d,%d,%d,%d,%d,%d,%d,%s,%d,%d,%d".toList
      [FmtArg.str "IR".toList, FmtArg.int 11,
       FmtArg.int (ir 0), FmtArg.int (ir 1), FmtArg.int (ir 2),
       FmtArg.int (ir 3), FmtArg.int (ir 4), FmtArg.int (ir 5),
       FmtArg.int (ir 6), FmtArg.int (ir 7), FmtArg.int (ir 8),
       FmtArg.int (ir 9), FmtArg.int (ir 10),
       FmtArg.str "ENC".toList, FmtArg.int 2,
       FmtArg.int enc_r, FmtArg.int enc_l] =
    "$K3DRV,RES,DATA,IR,11,".toList ++
      ",".toList.intercalate ((List.range 11).map (fun i => fmt_d (ir i))) ++
      ",ENC,2,".toList ++ fmt_d enc_r ++ ',' :: fmt_d enc_l := by
  have h11 : fmt_d 11 = "11".toList := by decide
  have h2 : fmt_d 2 = "2".toList := by decide
  simp [sprintf, h11, h2, List.range, List.range.loop, List.intercalate]

/-- A data request makes the two sensor calls and writes the data reply. -/
theorem parse_data (robot : Robot) :
    parse_udp_packet robot "$K3DRV,REQ,DATA".toList =
      { calls := [GatewayCall.khepera3_infrared_proximity, GatewayCall.odometry_track_step],
        reply := some ("$K3DRV,RES,DATA,IR,11,".toList ++
          ",".toList.intercalate ((List.range 11).map (fun i => fmt_d (robot.sensor i))) ++
          ",ENC,2,".toList ++ fmt_d robot.pos_right_prev ++ ',' :: fmt_d robot.pos_left_prev),
        perror := none } := by
  have hmsg : "$K3DRV,REQ,DATA".toList =
      "$K3DRV".toList ++ ',' :: ("REQ".toList ++ ',' :: "DATA".toList) := rfl
  rw [hmsg]
  unfold parse_udp_packet
  rw [strtok_r_field _ _ (by decide) (by decide)]
  simp only [ne_eq, not_true_eq_false, if_false]
  rw [strtok_r_field _ _ (by decide) (by decide)]
  simp only [ne_eq, not_true_eq_false, if_false]
  rw [strtok_r_last _ (by decide) (by decide)]
  simp only
  rw [if_neg (by decide), if_pos (by decide)]
  simp only [sprintf_data]

theorem cstr_terminated (bytes : List Char) : cstr (bytes ++ [NUL]) = cstr bytes := by
  unfold cstr
  induction bytes with
  | nil => simp [List.takeWhile_cons]
  | cons a as ih =>
    rw [List.cons_append, List.takeWhile_cons, List.takeWhile_cons, ih]

theorem cstr_of_no_nul (bytes : List Char) (h : NUL ∉ bytes) : cstr bytes = bytes := by
  unfold cstr
  apply takeWhile_all
  intro c hc
  have : c ≠ NUL := fun e => h (e ▸ hc)
  simp [this]

theorem store_terminator_short (bytes : List Char) (h : bytes.length < ECHOMAX) :
    store_terminator ECHOMAX (recvfrom bytes ECHOMAX).1 (recvfrom bytes ECHOMAX).2 =
      some (bytes ++ [NUL]) := by
  unfold store_terminator recvfrom
  have h1 : min bytes.length ECHOMAX = bytes.length := Nat.min_eq_left (Nat.le_of_lt h)
  have h2 : List.take ECHOMAX bytes = bytes := List.take_of_length_le (Nat.le_of_lt h)
  simp only [h1, h2, h, if_true, List.take_length]

theorem store_terminator_long (bytes : List Char) (h : ECHOMAX ≤ bytes.length) :
    store_terminator ECHOMAX (recvfrom bytes ECHOMAX).1 (recvfrom bytes ECHOMAX).2 = none := by
  unfold store_terminator recvfrom
  have h1 : min bytes.length ECHOMAX = ECHOMAX := Nat.min_eq_right h
  simp only [h1, Nat.lt_irrefl, if_false]

/-- The control loop on a datagram shorter than the receive buffer: the string
is parsed, the robot calls are made, the reply buffer is sent, and the
configured timeout is armed again. -/
theorem control_datagram (configuration : Configuration) (robot : Robot) (s : Session)
    (bytes : List Char) (h : bytes.length < ECHOMAX) :
    state_udp_control configuration robot s (Event.datagram bytes) =
      Outcome.next
        { tv_sec := configuration.timeout,
          replyBuffer := (parse_udp_packet robot (cstr bytes)).reply.getD s.replyBuffer,
          calls := s.calls ++ (parse_udp_packet robot (cstr bytes)).calls,
          sent := s.sent ++ [(parse_udp_packet robot (cstr bytes)).reply.getD s.replyBuffer] } := by
  simp only [state_udp_control]
  rw [store_terminator_short bytes h]
  simp only [cstr_terminated, replyBuffer_not_null, if_true]
  cases (parse_udp_packet robot (cstr bytes)).reply <;> rfl

/-- The data loop on a datagram shorter than the receive buffer. -/
theorem data_datagram (robot : Robot) (s : Session)
    (bytes : List Char) (h : bytes.length < ECHOMAX) :
    state_udp_data robot s bytes =
      Outcome.next
        { tv_sec := s.tv_sec,
          replyBuffer := (parse_udp_packet robot (cstr bytes)).reply.getD s.replyBuffer,
          calls := s.calls ++ (parse_udp_packet robot (cstr bytes)).calls,
          sent := s.sent ++ [(parse_udp_packet robot (cstr bytes)).reply.getD s.replyBuffer] } := by
  simp only [state_udp_data]
  rw [store_terminator_short bytes h]
  simp only [cstr_terminated, replyBuffer_not_null, if_true]
  cases (parse_udp_packet robot (cstr bytes)).reply <;> rfl

theorem control_datagram_long (configuration : Configuration) (robot : Robot) (s : Session)
    (bytes : List Char) (h : ECHOMAX ≤ bytes.length) :
    state_udp_control configuration robot s (Event.datagram bytes) = Outcome.undefined := by
  simp only [state_udp_control]
  rw [store_terminator_long bytes h]

theorem data_datagram_long (robot : Robot) (s : Session)
    (bytes : List Char) (h : ECHOMAX ≤ bytes.length) :
    state_udp_data robot s bytes = Outcome.undefined := by
  simp only [state_udp_data]
  rw [store_terminator_long bytes h]

theorem parse_init (robot : Robot) :
    parse_udp_packet robot "$K3DRV,REQ,INIT".toList =
      { calls := [GatewayCall.khepera3_motor_set_current_position Motor.motor_left 0,
                  GatewayCall.khepera3_motor_set_current_position Motor.motor_right 0],
        reply := some "$K3DRV,RES,INIT".toList,
        perror := none } := by
  have hmsg : "$K3DRV,REQ,INIT".toList =
      "$K3DRV".toList ++ ',' :: ("REQ".toList ++ ',' :: "INIT".toList) := rfl
  rw [hmsg]
  unfold parse_udp_packet
  rw [strtok_r_field _ _ (by decide) (by decide)]
  simp only [ne_eq, not_true_eq_false, if_false]
  rw [strtok_r_field _ _ (by decide) (by decide)]
  simp only [ne_eq, not_true_eq_false, if_false]
  rw [strtok_r_last _ (by decide) (by decide)]
  simp only
  rw [if_neg (by decide), if_neg (by decide), if_pos (by decide)]
  rfl


theorem parse_accepts_iff (robot : Robot) (msg : List Char) :
    (accepted_tokens (tokens msg) = false →
      (parse_udp_packet robot msg).calls = [] ∧ (parse_udp_packet robot msg).reply = none ∧
        (parse_udp_packet robot msg).perror ≠ none) ∧
    (accepted_tokens (tokens msg) = true →
      (parse_udp_packet robot msg).calls ≠ [] ∧ (parse_udp_packet robot msg).reply ≠ none ∧
        (parse_udp_packet robot msg).perror = none) := by
  rw [tokens_eq msg]
  unfold parse_udp_packet
  cases h1 : strtok_r delim msg with
  | none => simp [accepted_tokens, reject]
  | some p1 =>
    obtain ⟨t1, r1⟩ := p1
    simp only
    rw [tokens_eq r1]
    cases h2 : strtok_r delim r1 with
    | none => by_cases e1 : t1 = "$K3DRV".toList <;> (simp only [e1, accepted_tokens, reject, if_true, if_false, ne_eq, not_true_eq_false, not_false_eq_true]; simp)
    | some p2 =>
      obtain ⟨t2, r2⟩ := p2
      simp only
      rw [tokens_eq r2]
      cases h3 : strtok_r delim r2 with
      | none =>
        by_cases e1 : t1 = "$K3DRV".toList <;> by_cases e2 : t2 = "REQ".toList <;>
          (simp only [e1, e2, accepted_tokens, reject, if_true, if_false, ne_eq, not_true_eq_false, not_false_eq_true]; simp)
      | some p3 =>
        obtain ⟨t3, r3⟩ := p3
        simp only
        by_cases e1 : t1 = "$K3DRV".toList
        · by_cases e2 : t2 = "REQ".toList
          · by_cases e3 : t3 = "CTRL".toList
            · rw [tokens_eq r3]
              cases h4 : strtok_r delim r3 with
              | none => (simp only [e1, e2, e3, accepted_tokens, reject, if_true, if_false, ne_eq, not_true_eq_false, not_false_eq_true]; simp)
              | some p4 =>
                obtain ⟨t4, r4⟩ := p4
                simp only
                rw [tokens_eq r4]
                cases h5 : strtok_r delim r4 with
                | none => (simp only [e1, e2, e3, accepted_tokens, reject, if_true, if_false, ne_eq, not_true_eq_false, not_false_eq_true]; simp)
                | some p5 =>
                  obtain ⟨t5, r5⟩ := p5
                  (simp only [e1, e2, e3, accepted_tokens, reject, if_true, if_false, ne_eq, not_true_eq_false, not_false_eq_true]; simp)
            · by_cases e4 : t3 = "DATA".toList
              · (simp only [e1, e2, e3, e4, accepted_tokens, reject, if_true, if_false, ne_eq, not_true_eq_false, not_false_eq_true]; simp)
              · by_cases e5 : t3 = "INIT".toList
                · (simp only [e1, e2, e3, e4, e5, accepted_tokens, reject, if_true, if_false, ne_eq, not_true_eq_false, not_false_eq_true]; simp)
                · (simp only [e1, e2, e3, e4, e5, accepted_tokens, reject, if_true, if_false, ne_eq, not_true_eq_false, not_false_eq_true]; simp)
          · (simp only [e1, e2, accepted_tokens, reject, if_true, if_false, ne_eq, not_true_eq_false, not_false_eq_true]; simp)
        · (simp only [e1, accepted_tokens, reject, if_true, if_false, ne_eq, not_true_eq_false, not_false_eq_true]; simp)

theorem isdigit_ne_nul (c : Char) (h : isdigit c = true) : c ≠ NUL := by
  simp only [isdigit, Bool.and_eq_true, decide_eq_true_eq] at h
  intro hc
  have : c.toNat = 0 := by rw [hc]; rfl
  omega

theorem fmt_d_no_nul (n : Int) : NUL ∉ fmt_d n := by
  have hnat : ∀ m : Nat, NUL ∉ fmt_nat m := by
    intro m hm
    exact isdigit_ne_nul _ (fmt_nat_isdigit m _ hm) rfl
  unfold fmt_d
  split
  · intro hm
    rw [List.mem_cons] at hm
    rcases hm with hm | hm
    · exact absurd hm (by decide)
    · exact hnat _ hm
  · exact hnat _

/-- A 32 bit value prints in at most 11 characters. -/
theorem fmt_d_length (n : Int) (hlo : INT_MIN ≤ n) (hhi : n ≤ INT_MAX) :
    (fmt_d n).length ≤ 11 := by
  simp only [INT_MIN, INT_MAX] at hlo hhi
  unfold fmt_d
  split
  · have := fmt_nat_length 9 n.natAbs (by norm_num; omega)
    simp only [List.length_cons]
    omega
  · have := fmt_nat_length 9 n.toNat (by norm_num; omega)
    omega

theorem digits_value_all (ds : List Char) : ∀ acc : Nat, (∀ c ∈ ds, isdigit c = true) →
    digits_value acc ds = ds.foldl (fun a c => a * 10 + (c.toNat - 48)) acc := by
  induction ds with
  | nil => intro acc _; rfl
  | cons d ds ih =>
    intro acc h
    have hd : isdigit d = true := h d (by simp)
    simp only [digits_value, hd, if_true, List.foldl_cons]
    exact ih _ (fun c hc => h c (by simp [hc]))

theorem all_isdigit_no_comma (ds : List Char) (h : ds.all isdigit = true) : ',' ∉ ds := by
  intro hm
  rw [List.all_eq_true] at h
  exact (isdigit_facts _ (h _ hm)).2.2.2 rfl

/-- A token that is a decimal integer as a whole is not empty and holds no
comma. -/
theorem spec_int_token (t : List Char) (v : Int) (h : spec_int t = some v) :
    t ≠ [] ∧ ',' ∉ t := by
  cases t with
  | nil => simp [spec_int] at h
  | cons c cs =>
    refine ⟨by simp, ?_⟩
    simp only [spec_int] at h
    by_cases h1 : c = '-'
    · simp only [h1, if_true] at h
      split at h
      · rename_i hh
        intro hm
        rw [List.mem_cons] at hm
        rcases hm with hm | hm
        · rw [h1] at hm; exact absurd hm (by decide)
        · exact all_isdigit_no_comma cs hh.2 hm
      · cases h
    · by_cases h2 : c = '+'
      · simp only [h2, if_true] at h
        rw [if_neg (by decide)] at h
        split at h
        · rename_i hh
          intro hm
          rw [List.mem_cons] at hm
          rcases hm with hm | hm
          · rw [h2] at hm; exact absurd hm (by decide)
          · exact all_isdigit_no_comma cs hh.2 hm
        · cases h
      · simp only [h1, h2, if_false] at h
        split at h
        · rename_i hh
          exact all_isdigit_no_comma _ hh
        · cases h

/-- On a token that is a decimal integer as a whole with a value in the `int`
range, `atoi` returns the value. -/
theorem atoi_spec_int (t : List Char) (v : Int) (h : spec_int t = some v)
    (hlo : INT_MIN ≤ v) (hhi : v ≤ INT_MAX) : atoi t = v := by
  have clamp : ∀ w : Int, INT_MIN ≤ w → w ≤ INT_MAX →
      (if w < INT_MIN then INT_MIN else if INT_MAX < w then INT_MAX else w) = w := by
    intro w h1 h2
    rw [if_neg (by omega), if_neg (by omega)]
  cases t with
  | nil => simp [spec_int] at h
  | cons c cs =>
    simp only [spec_int] at h
    unfold atoi strtol
    by_cases h1 : c = '-'
    · simp only [h1, if_true] at h
      split at h
      · rename_i hh
        have hsp : isspace '-' = false := by decide
        simp only [h1, List.dropWhile_cons, hsp, Bool.false_eq_true, if_false, if_true]
        rw [digits_value_all cs 0 (by simpa [List.all_eq_true] using hh.2)]
        simp only [Option.some.injEq] at h
        simp only [spec_digits_value] at h
        rw [h]
        exact clamp v hlo hhi
      · cases h
    · by_cases h2 : c = '+'
      · simp only [h2, if_true] at h
        rw [if_neg (by decide)] at h
        split at h
        · rename_i hh
          have hsp : isspace '+' = false := by decide
          have hne : ¬ ('+' = '-') := by decide
          simp only [h2, List.dropWhile_cons, hsp, Bool.false_eq_true, if_false, if_true, hne]
          rw [digits_value_all cs 0 (by simpa [List.all_eq_true] using hh.2)]
          simp only [Option.some.injEq] at h
          simp only [spec_digits_value] at h
          rw [h]
          exact clamp v hlo hhi
        · cases h
      · simp only [h1, h2, if_false] at h
        split at h
        · rename_i hh
          have hall : ∀ x ∈ c :: cs, isdigit x = true := by
            simpa [List.all_eq_true] using hh
          have hc : isdigit c = true := hall c (by simp)
          have hsp := (isdigit_facts c hc).1
          simp only [List.dropWhile_cons, hsp, Bool.false_eq_true, if_false, h1, h2]
          rw [digits_value_all (c :: cs) 0 hall]
          simp only [Option.some.injEq] at h
          simp only [spec_digits_value] at h
          rw [h]
          exact clamp v hlo hhi
        · cases h

/-- Without a digit to convert `atoi` returns 0. -/
theorem atoi_no_digits (t : List Char) (h : no_digits t = true) : atoi t = 0 := by
  unfold no_digits at h
  unfold atoi strtol
  cases hd : t.dropWhile isspace with
  | nil => simp [INT_MIN, INT_MAX]
  | cons c cs =>
    rw [hd] at h
    simp only at h
    by_cases h1 : c = '-'
    · simp only [h1, true_or, if_true] at h
      simp only [h1, if_true, digits_value_stops 0 cs h]
      simp [INT_MIN, INT_MAX]
    · by_cases h2 : c = '+'
      · simp only [h2, or_true, if_true] at h
        have hne : ¬ ('+' = '-') := by decide
        simp only [h2, hne, if_false, if_true, digits_value_stops 0 cs h]
        simp [INT_MIN, INT_MAX]
      · simp only [h1, h2, or_self, if_false] at h
        simp only [h1, h2, if_false, digits_value_stops 0 (c :: cs) h]
        simp [INT_MIN, INT_MAX]

theorem parse_foo (robot : Robot) :
    parse_udp_packet robot "$K3DRV,REQ,FOO".toList =
      reject "Parsing failed: Expected CTRL, DATA, or INIT token." := by
  have hmsg : "$K3DRV,REQ,FOO".toList =
      "$K3DRV".toList ++ ',' :: ("REQ".toList ++ ',' :: "FOO".toList) := rfl
  rw [hmsg]
  unfold parse_udp_packet
  rw [strtok_r_field _ _ (by decide) (by decide)]
  simp only [ne_eq, not_true_eq_false, if_false]
  rw [strtok_r_field _ _ (by decide) (by decide)]
  simp only [ne_eq, not_true_eq_false, if_false]
  rw [strtok_r_last _ (by decide) (by decide)]
  simp only
  rw [if_neg (by decide), if_neg (by decide), if_neg (by decide)]

/-- The texts `parse_udp_packet` can write: none, one of the two fixed
acknowledgements, or the data reply. -/
theorem parse_reply_cases (robot : Robot) (msg : List Char) :
    (parse_udp_packet robot msg).reply = none ∨
    (parse_udp_packet robot msg).reply = some "$K3DRV,CTRL,RES".toList ∨
    (parse_udp_packet robot msg).reply = some "$K3DRV,RES,INIT".toList ∨
    (parse_udp_packet robot msg).reply =
      (parse_udp_packet robot "$K3DRV,REQ,DATA".toList).reply := by
  rw [parse_data robot]
  unfold parse_udp_packet
  cases h1 : strtok_r delim msg with
  | none => left; rfl
  | some p1 =>
    obtain ⟨t1, r1⟩ := p1
    simp only
    split
    · left; rfl
    · cases h2 : strtok_r delim r1 with
      | none => left; rfl
      | some p2 =>
        obtain ⟨t2, r2⟩ := p2
        simp only
        split
        · left; rfl
        · cases h3 : strtok_r delim r2 with
          | none => left; rfl
          | some p3 =>
            obtain ⟨t3, r3⟩ := p3
            simp only
            split
            · cases h4 : strtok_r delim r3 with
              | none => left; rfl
              | some p4 =>
                obtain ⟨t4, r4⟩ := p4
                simp only
                cases h5 : strtok_r delim r4 with
                | none => left; rfl
                | some p5 =>
                  right; left; rfl
            · split
              · right; right; right
                simp only [sprintf_data]
              · split
                · right; right; left; rfl
                · left; rfl

/-- The data reply for 32 bit readings is at most 183 characters long. -/
theorem data_reply_length (ir : Nat → Int) (enc_r enc_l : Int)
    (hir : ∀ i, i < 11 → INT_MIN ≤ ir i ∧ ir i ≤ INT_MAX)
    (hr : INT_MIN ≤ enc_r ∧ enc_r ≤ INT_MAX) (hl : INT_MIN ≤ enc_l ∧ enc_l ≤ INT_MAX) :
    ("$K3DRV,RES,DATA,IR,11,".toList ++
      ",".toList.intercalate ((List.range 11).map (fun i => fmt_d (ir i))) ++
      ",ENC,2,".toList ++ fmt_d enc_r ++ ',' :: fmt_d enc_l).length ≤ 183 := by
  have h0 := fmt_d_length (ir 0) (hir 0 (by decide)).1 (hir 0 (by decide)).2
  have h1 := fmt_d_length (ir 1) (hir 1 (by decide)).1 (hir 1 (by decide)).2
  have h2 := fmt_d_length (ir 2) (hir 2 (by decide)).1 (hir 2 (by decide)).2
  have h3 := fmt_d_length (ir 3) (hir 3 (by decide)).1 (hir 3 (by decide)).2
  have h4 := fmt_d_length (ir 4) (hir 4 (by decide)).1 (hir 4 (by decide)).2
  have h5 := fmt_d_length (ir 5) (hir 5 (by decide)).1 (hir 5 (by decide)).2
  have h6 := fmt_d_length (ir 6) (hir 6 (by decide)).1 (hir 6 (by decide)).2
  have h7 := fmt_d_length (ir 7) (hir 7 (by decide)).1 (hir 7 (by decide)).2
  have h8 := fmt_d_length (ir 8) (hir 8 (by decide)).1 (hir 8 (by decide)).2
  have h9 := fmt_d_length (ir 9) (hir 9 (by decide)).1 (hir 9 (by decide)).2
  have h10 := fmt_d_length (ir 10) (hir 10 (by decide)).1 (hir 10 (by decide)).2
  have h11 := fmt_d_length enc_r hr.1 hr.2
  have h12 := fmt_d_length enc_l hl.1 hl.2
  simp [List.range, List.range.loop, List.intercalate]
  omega

/-- A control request printed with `%d` is shorter than the receive buffer and
holds no NUL. -/
theorem ctrl_datagram_facts (r l : Int)
    (hr : INT_MIN ≤ r ∧ r ≤ INT_MAX) (hl : INT_MIN ≤ l ∧ l ≤ INT_MAX) :
    ("$K3DRV,REQ,CTRL,".toList ++ fmt_d r ++ ',' :: fmt_d l).length < ECHOMAX ∧
    NUL ∉ "$K3DRV,REQ,CTRL,".toList ++ fmt_d r ++ ',' :: fmt_d l := by
  have h1 := fmt_d_length r hr.1 hr.2
  have h2 := fmt_d_length l hl.1 hl.2
  constructor
  · simp [ECHOMAX]
    omega
  · intro hm
    rw [List.mem_append, List.mem_append, List.mem_cons] at hm
    rcases hm with (hm | hm) | hm | hm
    · exact absurd hm (by decide)
    · exact fmt_d_no_nul r hm
    · exact absurd hm (by decide)
    · exact fmt_d_no_nul l hm

/-! ## The claims -/

/-- C1: for decimal integers `r` and `l` in the `int` range the datagram
`$K3DRV,REQ,CTRL,<r>,<l>` makes `parse_udp_packet` issue exactly one call into
the robot library, `khepera3_drive_set_speed(l, r)` (left speed `l`, right
speed `r`), and write the reply `$K3DRV,CTRL,RES`. This holds for every pair of
tokens that are decimal integers as a whole, and for the tokens `%d` prints. -/
theorem C1_ctrl_request (robot : Robot) (r l : Int) (tr tl : List Char)
    (hr : INT_MIN ≤ r ∧ r ≤ INT_MAX) (hl : INT_MIN ≤ l ∧ l ≤ INT_MAX)
    (htr : spec_int tr = some r) (htl : spec_int tl = some l) :
    parse_udp_packet robot ("$K3DRV,REQ,CTRL,".toList ++ tr ++ ',' :: tl) =
      { calls := [GatewayCall.khepera3_drive_set_speed l r],
        reply := some "$K3DRV,CTRL,RES".toList,
        perror := none } ∧
    parse_udp_packet robot ("$K3DRV,REQ,CTRL,".toList ++ fmt_d r ++ ',' :: fmt_d l) =
      { calls := [GatewayCall.khepera3_drive_set_speed l r],
        reply := some "$K3DRV,CTRL,RES".toList,
        perror := none } := by
  constructor
  · rw [parse_ctrl robot tr tl (spec_int_token tr r htr).1 (spec_int_token tr r htr).2
      (spec_int_token tl l htl).1 (spec_int_token tl l htl).2,
      atoi_spec_int tr r htr hr.1 hr.2, atoi_spec_int tl l htl hl.1 hl.2]
  · rw [parse_ctrl robot (fmt_d r) (fmt_d l) (fmt_d_ne_nil r) (fmt_d_no_comma r)
      (fmt_d_ne_nil l) (fmt_d_no_comma l)]
    have h1 := atoi_fmt_d r [] hr.1 hr.2 rfl
    have h2 := atoi_fmt_d l [] hl.1 hl.2 rfl
    rw [List.append_nil] at h1 h2
    rw [h1, h2]

/-- C1, scenario 1: `$K3DRV,REQ,CTRL,50,-50` gives right speed 50 and left
speed -50. -/
theorem C1_ctrl_request_witness :
    (INT_MIN ≤ 50 ∧ (50 : Int) ≤ INT_MAX) ∧ (INT_MIN ≤ -50 ∧ (-50 : Int) ≤ INT_MAX) ∧
    spec_int "50".toList = some 50 ∧ spec_int "-50".toList = some (-50) ∧
    parse_udp_packet scenario_robot "$K3DRV,REQ,CTRL,50,-50".toList =
      { calls := [GatewayCall.khepera3_drive_set_speed (-50) 50],
        reply := some "$K3DRV,CTRL,RES".toList,
        perror := none } :=
  ⟨by decide, by decide, by decide, by decide,
    (C1_ctrl_request scenario_robot 50 (-50) "50".toList "-50".toList
      (by decide) (by decide) (by decide) (by decide)).1⟩

/-- C2: in the control loop a receive timeout (possible only while a timeout
is armed) issues exactly one `khepera3_drive_set_speed(0,0)`, sends nothing and
sets the receive timeout to zero, that is to an unbounded wait, in which no
further timeout can occur; a datagram shorter than the receive buffer is
handled in either state, and after any datagram has been handled the
configured timeout is armed again. -/
theorem C2_failsafe (configuration : Configuration) (robot : Robot) (s : Session)
    (bytes : List Char) (harmed : s.tv_sec ≠ 0) (hlen : bytes.length < ECHOMAX) :
    state_udp_control configuration robot s Event.expired =
      Outcome.next { tv_sec := 0, replyBuffer := s.replyBuffer,
                     calls := s.calls ++ [GatewayCall.khepera3_drive_set_speed 0 0],
                     sent := s.sent } ∧
    (∀ (robot2 : Robot) (s1 : Session),
      state_udp_control configuration robot s Event.expired = Outcome.next s1 →
      state_udp_control configuration robot2 s1 Event.expired = Outcome.impossible) ∧
    (∀ (robot2 : Robot) (s1 : Session),
      state_udp_control configuration robot s Event.expired = Outcome.next s1 →
      ∃ s2, state_udp_control configuration robot2 s1 (Event.datagram bytes) = Outcome.next s2 ∧
        s2.tv_sec = configuration.timeout) ∧
    (∃ s2, state_udp_control configuration robot s (Event.datagram bytes) = Outcome.next s2 ∧
      s2.tv_sec = configuration.timeout) ∧
    (∀ (robot2 : Robot) (s1 s2 : Session) (datagram : List Char),
      state_udp_control configuration robot2 s1 (Event.datagram datagram) = Outcome.next s2 →
      s2.tv_sec = configuration.timeout) := by
  have hexp : state_udp_control configuration robot s Event.expired =
      Outcome.next { tv_sec := 0, replyBuffer := s.replyBuffer,
                     calls := s.calls ++ [GatewayCall.khepera3_drive_set_speed 0 0],
                     sent := s.sent } := by
    simp only [state_udp_control, harmed, if_false]
  refine ⟨hexp, ?_, ?_, ?_, ?_⟩
  · intro robot2 s1 h1
    rw [hexp] at h1
    cases h1
    simp only [state_udp_control, if_true]
  · intro robot2 s1 _
    exact ⟨_, control_datagram configuration robot2 s1 bytes hlen, rfl⟩
  · exact ⟨_, control_datagram configuration robot s bytes hlen, rfl⟩
  · intro robot2 s1 s2 datagram h
    by_cases hd : datagram.length < ECHOMAX
    · rw [control_datagram configuration robot2 s1 datagram hd] at h
      cases h
      rfl
    · rw [control_datagram_long configuration robot2 s1 datagram (by omega)] at h
      cases h

/-- C2, scenario 4: the control loop started with timeout 2 stops the motors
once on expiry, and a control request restores the timeout. -/
theorem C2_failsafe_witness :
    (Session.start 2).tv_sec ≠ 0 ∧ "$K3DRV,REQ,CTRL,50,-50".toList.length < ECHOMAX ∧
    state_udp_control scenario_configuration scenario_robot (Session.start 2) Event.expired =
      Outcome.next { tv_sec := 0, replyBuffer := [],
                     calls := [GatewayCall.khepera3_drive_set_speed 0 0], sent := [] } :=
  ⟨by decide, by decide,
    (C2_failsafe scenario_configuration scenario_robot (Session.start 2)
      "$K3DRV,REQ,CTRL,50,-50".toList (by decide) (by decide)).1⟩

/-- C3: the request `$K3DRV,REQ,FOO` is rejected by `parse_udp_packet` (no
call, nothing written to the reply buffer), and all the same each of the two
session loops hands its reply buffer, with whatever it held before, to `sendto`:
one more datagram is sent to the peer. -/
theorem C3_rejected_request_is_answered (configuration : Configuration) (robot : Robot)
    (s : Session) :
    parse_udp_packet robot "$K3DRV,REQ,FOO".toList =
      { calls := [], reply := none,
        perror := some "Parsing failed: Expected CTRL, DATA, or INIT token." } ∧
    state_udp_control configuration robot s (Event.datagram "$K3DRV,REQ,FOO".toList) =
      Outcome.next { tv_sec := configuration.timeout, replyBuffer := s.replyBuffer,
                     calls := s.calls, sent := s.sent ++ [s.replyBuffer] } ∧
    state_udp_data robot s "$K3DRV,REQ,FOO".toList =
      Outcome.next { tv_sec := s.tv_sec, replyBuffer := s.replyBuffer,
                     calls := s.calls, sent := s.sent ++ [s.replyBuffer] } := by
  have hc : cstr "$K3DRV,REQ,FOO".toList = "$K3DRV,REQ,FOO".toList := by decide
  refine ⟨parse_foo robot, ?_, ?_⟩
  · rw [control_datagram configuration robot s _ (by decide), hc, parse_foo robot]
    simp [reject]
  · rw [data_datagram robot s _ (by decide), hc, parse_foo robot]
    simp [reject]

/-- C4, as stated, fails: the datagram `,$K3DRV,,REQ,INIT,EXTRA` (a leading
comma, a doubled comma, a token after the complete request) is not a request of
the grammar, and `parse_udp_packet` zeroes both motor positions and writes the
reply `$K3DRV,RES,INIT`. -/
theorem C4_counterexample :
    spec_grammar ",$K3DRV,,REQ,INIT,EXTRA".toList = false ∧
    parse_udp_packet scenario_robot ",$K3DRV,,REQ,INIT,EXTRA".toList =
      { calls := [GatewayCall.khepera3_motor_set_current_position Motor.motor_left 0,
                  GatewayCall.khepera3_motor_set_current_position Motor.motor_right 0],
        reply := some "$K3DRV,RES,INIT".toList,
        perror := none } := by
  constructor
  · decide
  · decide

/-- C4, amended: `parse_udp_packet` ends in a rejecting branch (no call into
the robot library, nothing written to the reply buffer, a message to `perror`)
exactly for the strings whose `strtok_r` tokens, the non-empty fields between
commas, do not begin with `$K3DRV`, `REQ` and then `INIT`, or `DATA`, or `CTRL`
and two more tokens; every other string is accepted. -/
theorem C4_rejects (robot : Robot) (msg : List Char) :
    (accepted_tokens (tokens msg) = false →
      (parse_udp_packet robot msg).calls = [] ∧ (parse_udp_packet robot msg).reply = none ∧
        (parse_udp_packet robot msg).perror ≠ none) ∧
    (accepted_tokens (tokens msg) = true →
      (parse_udp_packet robot msg).calls ≠ [] ∧ (parse_udp_packet robot msg).reply ≠ none ∧
        (parse_udp_packet robot msg).perror = none) :=
  parse_accepts_iff robot msg

/-- C4, amended, at a control request with one argument (rejected) and at a
request with empty fields and a trailing token (accepted). -/
theorem C4_rejects_witness :
    (accepted_tokens (tokens "$K3DRV,REQ,CTRL,50".toList) = false ∧
      (parse_udp_packet scenario_robot "$K3DRV,REQ,CTRL,50".toList).calls = [] ∧
      (parse_udp_packet scenario_robot "$K3DRV,REQ,CTRL,50".toList).reply = none ∧
      (parse_udp_packet scenario_robot "$K3DRV,REQ,CTRL,50".toList).perror ≠ none) ∧
    (accepted_tokens (tokens ",$K3DRV,,REQ,DATA,X".toList) = true ∧
      (parse_udp_packet scenario_robot ",$K3DRV,,REQ,DATA,X".toList).calls ≠ [] ∧
      (parse_udp_packet scenario_robot ",$K3DRV,,REQ,DATA,X".toList).reply ≠ none ∧
      (parse_udp_packet scenario_robot ",$K3DRV,,REQ,DATA,X".toList).perror = none) :=
  ⟨⟨by decide, (C4_rejects scenario_robot "$K3DRV,REQ,CTRL,50".toList).1 (by decide)⟩,
   ⟨by decide, (C4_rejects scenario_robot ",$K3DRV,,REQ,DATA,X".toList).2 (by decide)⟩⟩

/-- C5, as stated, fails: the control loop answers `$K3DRV,REQ,DATA` with the
data reply, and the data loop, on `$K3DRV,REQ,INIT` and on
`$K3DRV,REQ,CTRL,50,-50`, calls the robot library and sends the
acknowledgement. -/
theorem C5_counterexample :
    state_udp_control scenario_configuration scenario_robot (Session.start 2)
        (Event.datagram "$K3DRV,REQ,DATA".toList) =
      Outcome.next
        { tv_sec := 2,
          replyBuffer := "$K3DRV,RES,DATA,IR,11,1,2,3,4,5,6,7,8,9,10,11,ENC,2,100,95".toList,
          calls := [GatewayCall.khepera3_infrared_proximity, GatewayCall.odometry_track_step],
          sent := ["$K3DRV,RES,DATA,IR,11,1,2,3,4,5,6,7,8,9,10,11,ENC,2,100,95".toList] } ∧
    state_udp_data scenario_robot (Session.start 0) "$K3DRV,REQ,INIT".toList =
      Outcome.next
        { tv_sec := 0,
          replyBuffer := "$K3DRV,RES,INIT".toList,
          calls := [GatewayCall.khepera3_motor_set_current_position Motor.motor_left 0,
                    GatewayCall.khepera3_motor_set_current_position Motor.motor_right 0],
          sent := ["$K3DRV,RES,INIT".toList] } ∧
    state_udp_data scenario_robot (Session.start 0) "$K3DRV,REQ,CTRL,50,-50".toList =
      Outcome.next
        { tv_sec := 0,
          replyBuffer := "$K3DRV,CTRL,RES".toList,
          calls := [GatewayCall.khepera3_drive_set_speed (-50) 50],
          sent := ["$K3DRV,CTRL,RES".toList] } := by
  refine ⟨?_, ?_, ?_⟩
  · decide
  · decide
  · decide

/-- C5, amended: the request types are not tied to a channel, both session
loops hand every datagram to the same `parse_udp_packet`. A data request
received by the control loop makes the two sensor calls and is answered with
the data reply; an initialisation request and a control request (speeds in the
`int` range) received by the data loop zero the motor positions, respectively
set the wheel speeds, and are answered with the acknowledgement. -/
theorem C5_channels (configuration : Configuration) (robot : Robot) (s : Session)
    (r l : Int) (hr : INT_MIN ≤ r ∧ r ≤ INT_MAX) (hl : INT_MIN ≤ l ∧ l ≤ INT_MAX) :
    state_udp_control configuration robot s (Event.datagram "$K3DRV,REQ,DATA".toList) =
      Outcome.next
        { tv_sec := configuration.timeout,
          replyBuffer := "$K3DRV,RES,DATA,IR,11,".toList ++
            ",".toList.intercalate ((List.range 11).map (fun i => fmt_d (robot.sensor i))) ++
            ",ENC,2,".toList ++ fmt_d robot.pos_right_prev ++ ',' :: fmt_d robot.pos_left_prev,
          calls := s.calls ++
            [GatewayCall.khepera3_infrared_proximity, GatewayCall.odometry_track_step],
          sent := s.sent ++ ["$K3DRV,RES,DATA,IR,11,".toList ++
            ",".toList.intercalate ((List.range 11).map (fun i => fmt_d (robot.sensor i))) ++
            ",ENC,2,".toList ++ fmt_d robot.pos_right_prev ++ ',' :: fmt_d robot.pos_left_prev] } ∧
    state_udp_data robot s "$K3DRV,REQ,INIT".toList =
      Outcome.next
        { tv_sec := s.tv_sec,
          replyBuffer := "$K3DRV,RES,INIT".toList,
          calls := s.calls ++
            [GatewayCall.khepera3_motor_set_current_position Motor.motor_left 0,
             GatewayCall.khepera3_motor_set_current_position Motor.motor_right 0],
          sent := s.sent ++ ["$K3DRV,RES,INIT".toList] } ∧
    state_udp_data robot s ("$K3DRV,REQ,CTRL,".toList ++ fmt_d r ++ ',' :: fmt_d l) =
      Outcome.next
        { tv_sec := s.tv_sec,
          replyBuffer := "$K3DRV,CTRL,RES".toList,
          calls := s.calls ++ [GatewayCall.khepera3_drive_set_speed l r],
          sent := s.sent ++ ["$K3DRV,CTRL,RES".toList] } := by
  have hd : cstr "$K3DRV,REQ,DATA".toList = "$K3DRV,REQ,DATA".toList := by decide
  have hi : cstr "$K3DRV,REQ,INIT".toList = "$K3DRV,REQ,INIT".toList := by decide
  obtain ⟨hlen, hnul⟩ := ctrl_datagram_facts r l hr hl
  have h1 := atoi_fmt_d r [] hr.1 hr.2 rfl
  have h2 := atoi_fmt_d l [] hl.1 hl.2 rfl
  rw [List.append_nil] at h1 h2
  refine ⟨?_, ?_, ?_⟩
  · rw [control_datagram configuration robot s _ (by decide), hd, parse_data robot]
    rfl
  · rw [data_datagram robot s _ (by decide), hi, parse_init robot]
    rfl
  · rw [data_datagram robot s _ hlen, cstr_of_no_nul _ hnul,
      parse_ctrl robot (fmt_d r) (fmt_d l) (fmt_d_ne_nil r) (fmt_d_no_comma r)
        (fmt_d_ne_nil l) (fmt_d_no_comma l), h1, h2]
    rfl

/-- C5, amended, at the speeds 50 and -50: the data loop sets the wheel
speeds. -/
theorem C5_channels_witness :
    (INT_MIN ≤ 50 ∧ (50 : Int) ≤ INT_MAX) ∧ (INT_MIN ≤ -50 ∧ (-50 : Int) ≤ INT_MAX) ∧
    state_udp_data scenario_robot (Session.start 0) "$K3DRV,REQ,CTRL,50,-50".toList =
      Outcome.next
        { tv_sec := 0,
          replyBuffer := "$K3DRV,CTRL,RES".toList,
          calls := [GatewayCall.khepera3_drive_set_speed (-50) 50],
          sent := ["$K3DRV,CTRL,RES".toList] } := by
  have h := (C5_channels scenario_configuration scenario_robot (Session.start 0) 50 (-50)
    (by decide) (by decide)).2.2
  have e : "$K3DRV,REQ,CTRL,".toList ++ fmt_d 50 ++ ',' :: fmt_d (-50) =
      "$K3DRV,REQ,CTRL,50,-50".toList := by decide
  rw [e] at h
  exact ⟨by decide, by decide, h⟩

/-- C6: for every reading of the infrared array and of the two encoders, the
reply `parse_udp_packet` writes for `$K3DRV,REQ,DATA` is
`$K3DRV,RES,DATA,IR,11,` followed by `ir[0]`, ..., `ir[10]` in index order, printed
with `%d` and separated by commas, followed by `,ENC,2,`, the right encoder, a
comma and the left encoder, with nothing after it; the calls made are the two
sensor readings. -/
theorem C6_data_reply (robot : Robot) :
    parse_udp_packet robot "$K3DRV,REQ,DATA".toList =
      { calls := [GatewayCall.khepera3_infrared_proximity, GatewayCall.odometry_track_step],
        reply := some ("$K3DRV,RES,DATA,IR,11,".toList ++
          ",".toList.intercalate ((List.range 11).map (fun i => fmt_d (robot.sensor i))) ++
          ",ENC,2,".toList ++ fmt_d robot.pos_right_prev ++ ',' :: fmt_d robot.pos_left_prev),
        perror := none } :=
  parse_data robot

/-- C6, scenario 2: infrared readings 1 to 11 and encoders (100, 95) give
`$K3DRV,RES,DATA,IR,11,1,2,3,4,5,6,7,8,9,10,11,ENC,2,100,95`. -/
theorem C6_data_reply_witness :
    parse_udp_packet scenario_robot "$K3DRV,REQ,DATA".toList =
      { calls := [GatewayCall.khepera3_infrared_proximity, GatewayCall.odometry_track_step],
        reply := some "$K3DRV,RES,DATA,IR,11,1,2,3,4,5,6,7,8,9,10,11,ENC,2,100,95".toList,
        perror := none } := by
  rw [C6_data_reply scenario_robot]
  decide

/-- C7: an initialisation request does the same in every session state and
for every robot reading: `parse_udp_packet` sets the current position of the
left and of the right motor to 0, one call each and no other call, and writes
`$K3DRV,RES,INIT`; two such requests in a row, received by the control loop in
any state, add two pairs of zeroing calls and send two equal replies. -/
theorem C7_init_repeatable (configuration : Configuration) (robot1 robot2 : Robot)
    (s : Session) :
    parse_udp_packet robot1 "$K3DRV,REQ,INIT".toList =
      { calls := [GatewayCall.khepera3_motor_set_current_position Motor.motor_left 0,
                  GatewayCall.khepera3_motor_set_current_position Motor.motor_right 0],
        reply := some "$K3DRV,RES,INIT".toList,
        perror := none } ∧
    state_udp_control configuration robot1 s (Event.datagram "$K3DRV,REQ,INIT".toList) =
      Outcome.next
        { tv_sec := configuration.timeout,
          replyBuffer := "$K3DRV,RES,INIT".toList,
          calls := s.calls ++
            [GatewayCall.khepera3_motor_set_current_position Motor.motor_left 0,
             GatewayCall.khepera3_motor_set_current_position Motor.motor_right 0],
          sent := s.sent ++ ["$K3DRV,RES,INIT".toList] } ∧
    state_udp_control configuration robot2
        { tv_sec := configuration.timeout,
          replyBuffer := "$K3DRV,RES,INIT".toList,
          calls := s.calls ++
            [GatewayCall.khepera3_motor_set_current_position Motor.motor_left 0,
             GatewayCall.khepera3_motor_set_current_position Motor.motor_right 0],
          sent := s.sent ++ ["$K3DRV,RES,INIT".toList] }
        (Event.datagram "$K3DRV,REQ,INIT".toList) =
      Outcome.next
        { tv_sec := configuration.timeout,
          replyBuffer := "$K3DRV,RES,INIT".toList,
          calls := s.calls ++
            [GatewayCall.khepera3_motor_set_current_position Motor.motor_left 0,
             GatewayCall.khepera3_motor_set_current_position Motor.motor_right 0,
             GatewayCall.khepera3_motor_set_current_position Motor.motor_left 0,
             GatewayCall.khepera3_motor_set_current_position Motor.motor_right 0],
          sent := s.sent ++ ["$K3DRV,RES,INIT".toList, "$K3DRV,RES,INIT".toList] } := by
  have hi : cstr "$K3DRV,REQ,INIT".toList = "$K3DRV,REQ,INIT".toList := by decide
  refine ⟨parse_init robot1, ?_, ?_⟩
  · rw [control_datagram configuration robot1 s _ (by decide), hi, parse_init robot1]
    rfl
  · rw [control_datagram configuration robot2 _ _ (by decide), hi, parse_init robot2]
    simp

/-- C8, as stated, fails at `$K3DRV,REQ,CTRL,12abc,2147483648`: the token
`12abc` is not a decimal integer, so that the speed of the right wheel should be
0, and `parse_udp_packet` sets it to 12; the token `2147483648` is a decimal
integer, so that the speed of the left wheel should be 2147483648, and the speed
set is an `int`, at most `INT_MAX` = 2147483647. -/
theorem C8_counterexample :
    spec_speed "12abc".toList = 0 ∧ spec_speed "2147483648".toList = 2147483648 ∧
    ∃ left : Int,
      parse_udp_packet scenario_robot "$K3DRV,REQ,CTRL,12abc,2147483648".toList =
        { calls := [GatewayCall.khepera3_drive_set_speed left 12],
          reply := some "$K3DRV,CTRL,RES".toList,
          perror := none } ∧
      left ≤ INT_MAX ∧ left ≠ spec_speed "2147483648".toList ∧
      (12 : Int) ≠ spec_speed "12abc".toList := by
  refine ⟨?_, ?_, 2147483647, ?_, ?_, ?_, ?_⟩
  · decide
  · decide
  · decide
  · decide
  · decide
  · decide

/-- C8, amended: a control request with both argument tokens is accepted, one
drive command is issued and `$K3DRV,CTRL,RES` is written; the speed of the right
wheel is `atoi` of the first token and that of the left wheel `atoi` of the
second, where `atoi` gives the value of a token that is a decimal integer in
the `int` range, the value of a leading decimal integer in that range when
other text follows it, and 0 when, after white space and a sign, the token has
no digit. -/
theorem C8_ctrl_atoi (robot : Robot) (a b : List Char) (ha : a ≠ []) (hac : ',' ∉ a)
    (hb : b ≠ []) (hbc : ',' ∉ b) :
    parse_udp_packet robot ("$K3DRV,REQ,CTRL,".toList ++ a ++ ',' :: b) =
      { calls := [GatewayCall.khepera3_drive_set_speed (atoi b) (atoi a)],
        reply := some "$K3DRV,CTRL,RES".toList,
        perror := none } ∧
    (∀ (t : List Char) (v : Int), spec_int t = some v → INT_MIN ≤ v → v ≤ INT_MAX →
      atoi t = v) ∧
    (∀ (n : Int) (rest : List Char), INT_MIN ≤ n → n ≤ INT_MAX → stops rest = true →
      atoi (fmt_d n ++ rest) = n) ∧
    (∀ t : List Char, no_digits t = true → atoi t = 0) :=
  ⟨parse_ctrl robot a b ha hac hb hbc,
   fun t v h h1 h2 => atoi_spec_int t v h h1 h2,
   fun n rest h1 h2 h => atoi_fmt_d n rest h1 h2 h,
   fun t h => atoi_no_digits t h⟩

/-- C8, amended, at `$K3DRV,REQ,CTRL,abc,12abc`: right speed 0, left speed
12. -/
theorem C8_ctrl_atoi_witness :
    ("abc".toList ≠ [] ∧ ',' ∉ "abc".toList ∧ "12abc".toList ≠ [] ∧ ',' ∉ "12abc".toList) ∧
    parse_udp_packet scenario_robot "$K3DRV,REQ,CTRL,abc,12abc".toList =
      { calls := [GatewayCall.khepera3_drive_set_speed 12 0],
        reply := some "$K3DRV,CTRL,RES".toList,
        perror := none } ∧
    atoi "-50".toList = -50 ∧ atoi "abc".toList = 0 := by
  have h := C8_ctrl_atoi scenario_robot "abc".toList "12abc".toList
    (by decide) (by decide) (by decide) (by decide)
  have e1 : atoi "12abc".toList = 12 := by
    have := h.2.2.1 12 "abc".toList (by decide) (by decide) (by decide)
    exact this
  have e2 : atoi "abc".toList = 0 := h.2.2.2 "abc".toList (by decide)
  have e3 : atoi "-50".toList = -50 :=
    h.2.1 "-50".toList (-50) (by decide) (by decide) (by decide)
  have h1 := h.1
  rw [e1, e2] at h1
  exact ⟨⟨by decide, by decide, by decide, by decide⟩, h1, e3, e2⟩

/-- C9: for 32 bit values of the 11 infrared readings and of the 2 encoder
readings, every text `parse_udp_packet` writes fits, with its terminating NUL,
the reply buffer of `ECHOMAX` = 255 bytes: the data reply is at most 183
characters long, the replies to `INIT` and to `CTRL` are 15 characters long,
and there is no other reply. -/
theorem C9_reply_fits (robot : Robot)
    (hir : ∀ i, i < 11 → INT_MIN ≤ robot.sensor i ∧ robot.sensor i ≤ INT_MAX)
    (hr : INT_MIN ≤ robot.pos_right_prev ∧ robot.pos_right_prev ≤ INT_MAX)
    (hl : INT_MIN ≤ robot.pos_left_prev ∧ robot.pos_left_prev ≤ INT_MAX) :
    (∀ msg text, (parse_udp_packet robot msg).reply = some text →
      text.length + 1 ≤ ECHOMAX) ∧
    (∃ text, (parse_udp_packet robot "$K3DRV,REQ,DATA".toList).reply = some text ∧
      text.length ≤ 183) ∧
    (parse_udp_packet robot "$K3DRV,REQ,INIT".toList).reply.map List.length = some 15 ∧
    (∀ r l : Int,
      (parse_udp_packet robot
        ("$K3DRV,REQ,CTRL,".toList ++ fmt_d r ++ ',' :: fmt_d l)).reply.map List.length
        = some 15) ∧
    (∀ msg text, (parse_udp_packet robot msg).reply = some text →
      text.length = 15 ∨ (parse_udp_packet robot "$K3DRV,REQ,DATA".toList).reply = some text) := by
  have hdata := data_reply_length robot.sensor robot.pos_right_prev robot.pos_left_prev hir hr hl
  have hcases : ∀ msg text, (parse_udp_packet robot msg).reply = some text →
      text.length = 15 ∨ (parse_udp_packet robot "$K3DRV,REQ,DATA".toList).reply = some text := by
    intro msg text h
    rcases parse_reply_cases robot msg with h1 | h1 | h1 | h1
    · rw [h1] at h; cases h
    · rw [h1] at h; cases h; left; decide
    · rw [h1] at h; cases h; left; decide
    · rw [h1] at h; right; exact h
  refine ⟨?_, ?_, ?_, ?_, hcases⟩
  · intro msg text h
    rcases hcases msg text h with h1 | h1
    · simp [ECHOMAX, h1]
    · rw [parse_data robot] at h1
      simp only [Option.some.injEq] at h1
      rw [← h1]
      simp only [ECHOMAX]
      omega
  · rw [parse_data robot]
    exact ⟨_, rfl, hdata⟩
  · rw [parse_init robot]
    decide
  · intro r l
    rw [parse_ctrl robot (fmt_d r) (fmt_d l) (fmt_d_ne_nil r) (fmt_d_no_comma r)
      (fmt_d_ne_nil l) (fmt_d_no_comma l)]
    rfl

/-- C9 for the readings of scenario 2: the data reply, 59 characters, fits
the reply buffer. -/
theorem C9_reply_fits_witness :
    (parse_udp_packet scenario_robot "$K3DRV,REQ,DATA".toList).reply =
      some "$K3DRV,RES,DATA,IR,11,1,2,3,4,5,6,7,8,9,10,11,ENC,2,100,95".toList ∧
    "$K3DRV,RES,DATA,IR,11,1,2,3,4,5,6,7,8,9,10,11,ENC,2,100,95".toList.length + 1 ≤ ECHOMAX := by
  have hreply : (parse_udp_packet scenario_robot "$K3DRV,REQ,DATA".toList).reply =
      some "$K3DRV,RES,DATA,IR,11,1,2,3,4,5,6,7,8,9,10,11,ENC,2,100,95".toList := by decide
  have h := C9_reply_fits scenario_robot
    (by intro i hi; simp only [scenario_robot, INT_MIN, INT_MAX]; omega)
    (by decide) (by decide)
  exact ⟨hreply, h.1 _ _ hreply⟩

/-- C10: a datagram of 255 bytes fills the receive buffer, `recvfrom` returns
255 = `ECHOMAX`, and the store `echoBuffer[recvMsgSize] = 0` of both session
loops is at index 255 of an array of 255 elements, outside the array; the
store is inside the array exactly for the datagrams shorter than `ECHOMAX`. -/
theorem C10_terminator_out_of_bounds (configuration : Configuration) (robot : Robot)
    (s : Session) :
    (recvfrom (List.replicate 255 'A') ECHOMAX).2 = 255 ∧
    store_terminator ECHOMAX (recvfrom (List.replicate 255 'A') ECHOMAX).1
      (recvfrom (List.replicate 255 'A') ECHOMAX).2 = none ∧
    state_udp_control configuration robot s (Event.datagram (List.replicate 255 'A')) =
      Outcome.undefined ∧
    state_udp_data robot s (List.replicate 255 'A') = Outcome.undefined ∧
    (∀ bytes : List Char,
      store_terminator ECHOMAX (recvfrom bytes ECHOMAX).1 (recvfrom bytes ECHOMAX).2 = none ↔
        ECHOMAX ≤ bytes.length) := by
  have hlen : ECHOMAX ≤ (List.replicate 255 'A').length := by
    rw [List.length_replicate]
    decide
  refine ⟨?_, store_terminator_long _ hlen, control_datagram_long _ _ _ _ hlen,
    data_datagram_long _ _ _ hlen, ?_⟩
  · show min (List.replicate 255 'A').length ECHOMAX = 255
    rw [List.length_replicate]
    rfl
  · intro bytes
    constructor
    · intro h
      by_contra hc
      rw [store_terminator_short bytes (by omega)] at h
      cases h
    · exact store_terminator_long bytes

end K3Driver
